import Mathlib

/-!
Shallow embedding of the Tabi browser-extension core (query/organize engine):
the search engine (src/lib/search.js), the domain grouper
(src/lib/domain-grouper.js), the storage abstraction (src/lib/storage.js),
the tab registry (src/lib/tabs-manager.js) and the import/export reconciler
(src/lib/import-export.js).

Modelling conventions:
- JS arrays become `List`, JS objects with a fixed schema become structures.
  Tab / label / settings records are modelled with all schema fields present;
  a JS-absent (`undefined`) string field is modelled as `""` and an absent
  numeric field as `0`, matching how the source only ever distinguishes these
  values through truthiness tests (`!x`, `x || d`).
- `chrome.storage` areas become explicit records of `Option`-valued keys
  (`none` = key absent); effectful operations are state-passing functions
  returning `(Except error result, newState)`.
- `Date.now()` and `crypto.randomUUID()` are ambient effects; they become
  explicit parameters (`now : Nat`, `gen : Nat → String` indexed by how many
  fresh ids the call has drawn).
- JS `Array.prototype.sort` with a numeric comparator is stable (ES2019);
  it is modelled by the stable insertion sort `sortDescBy` / `sortAscBy`.
- JS string `.toLowerCase`/`.trim`/`String.prototype.normalize('NFD')` are
  modelled on the fragment the data exercises: per-character lowercasing,
  ASCII whitespace trimming, and NFD as the identity (no precomposed
  characters in the modelled domain); the diacritic-stripping filter over
  U+0300..U+036F is kept verbatim.
-/

namespace Tabi

/-! ### JS string primitives -/

/-- The list `needle` occurs as a contiguous sublist of the second argument. -/
def listIsInfixOf [BEq α] (needle : List α) : List α → Bool
  | [] => needle.isEmpty
  | a :: as => needle.isPrefixOf (a :: as) || listIsInfixOf needle as

/-- JS `haystack.includes(needle)` (substring containment; any string
`.includes` of the empty string is `true`). -/
def strIncludes (haystack needle : String) : Bool :=
  listIsInfixOf needle.toList haystack.toList

/-- JS UTF-16 `String.prototype.length` of a single code point: code points
above U+FFFF count as a surrogate pair. -/
def jsCharLen (c : Char) : Nat :=
  if c.toNat < 0x10000 then 1 else 2

/-- JS UTF-16 `String.prototype.length`. -/
def jsLen (s : String) : Nat :=
  (s.toList.map jsCharLen).sum

/-! ### Data model (§3 of the spec; record shapes built by
`saveTab` in src/lib/tabs-manager.js and `addCustomLabel` in
src/lib/storage.js) -/

structure Tab where
  id : String
  url : String
  domain : String
  title : String
  description : String
  labels : List String
  dateAdded : Nat
  favicon : String
  dateModified : Option Nat
deriving DecidableEq, Repr

structure Label where
  id : String
  name : String
  color : String
  isCustom : Bool
deriving DecidableEq, Repr

structure Settings where
  storageMode : String
  defaultLabels : List String
  groupsCollapsed : List (String × Bool)
deriving DecidableEq, Repr

/-- Constant `DEFAULT_SETTINGS` from src/lib/storage.js. -/
def DEFAULT_SETTINGS : Settings :=
  { storageMode := "local", defaultLabels := [], groupsCollapsed := [] }

/-- One `chrome.storage` area, restricted to the three persisted keys of the
schema (`tabs`, `customLabels`, `settings`); `none` models an absent key. -/
structure Store where
  tabs : Option (List Tab)
  customLabels : Option (List Label)
  settings : Option Settings
deriving DecidableEq, Repr

/-! ### Stable sorting (model of JS `Array.prototype.sort` with a numeric
comparator, which is required to be stable) -/

/-- Insert `x` into `l` in front of the first element whose key is `≤ f x`:
the stable insertion step for a descending sort (elements equal to `x`
stay behind it only if they were in front of it, i.e. never here, since
`x` is inserted coming from the front of the original list). -/
def insertDescBy (f : α → Nat) (x : α) : List α → List α
  | [] => [x]
  | y :: ys => if f y ≤ f x then x :: y :: ys else y :: insertDescBy f x ys

/-- Stable sort by descending key: model of `arr.sort((a, b) => f b - f a)`. -/
def sortDescBy (f : α → Nat) : List α → List α
  | [] => []
  | x :: xs => insertDescBy f x (sortDescBy f xs)

/-- Insert `x` into `l` in front of the first element whose key is `> f x`:
stable insertion step for an ascending sort. -/
def insertAscBy (f : α → Nat) (x : α) : List α → List α
  | [] => [x]
  | y :: ys => if f x ≤ f y then x :: y :: ys else y :: insertAscBy f x ys

/-- Stable sort by ascending key: model of `arr.sort((a, b) => f a - f b)`. -/
def sortAscBy (f : α → Nat) : List α → List α
  | [] => []
  | x :: xs => insertAscBy f x (sortAscBy f xs)

/-! ### Search engine (src/lib/search.js) -/

/-- JS `String.prototype.trim`, on the ASCII whitespace fragment. -/
def jsTrim (s : String) : String :=
  String.mk
    (((s.toList.dropWhile Char.isWhitespace).reverse.dropWhile Char.isWhitespace).reverse)

/-- Function `normalizeSearchText`: lowercase, NFD-normalize (modelled as the
identity), strip combining diacritics U+0300..U+036F, trim. -/
def normalizeSearchText (text : String) : String :=
  jsTrim (String.mk ((text.toList.map Char.toLower).filter
    fun c => !(0x300 ≤ c.toNat && c.toNat ≤ 0x36F)))

/-- The additive relevance score of `searchTabsWithRelevance`: title 10,
domain 8, any label 6, description 4, url 2; fields scored independently. -/
def relevanceScore (normalizedQuery : String) (tab : Tab) : Nat :=
  (if strIncludes (normalizeSearchText tab.title) normalizedQuery then 10 else 0) +
  (if strIncludes (normalizeSearchText tab.domain) normalizedQuery then 8 else 0) +
  (if tab.labels.any (fun label => strIncludes (normalizeSearchText label) normalizedQuery)
    then 6 else 0) +
  (if strIncludes (normalizeSearchText tab.description) normalizedQuery then 4 else 0) +
  (if strIncludes (normalizeSearchText tab.url) normalizedQuery then 2 else 0)

/-- Function `searchTabsWithRelevance(tabs, query)`: empty/whitespace/normalizes-empty
queries return the input unchanged; otherwise score every tab, drop scores
of 0, stable-sort by descending score, and project the tabs back out. -/
def searchTabsWithRelevance (tabs : List Tab) (query : String) : List Tab :=
  if jsTrim query = "" then tabs
  else
    let normalizedQuery := normalizeSearchText query
    if normalizedQuery = "" then tabs
    else
      (sortDescBy (fun item => item.2)
        ((tabs.map fun tab => (tab, relevanceScore normalizedQuery tab)).filter
          fun item => 0 < item.2)).map fun item => item.1

/-! ### Domain extraction (src/lib/domain-grouper.js, `extractDomain`)

`extractDomain` calls the host platform's WHATWG `new URL(url)` and returns
`.hostname`, catching any parse failure. `extractHostname` below models the
hostname extraction of the WHATWG basic URL parser on the fragment this data
exercises: C0/space trimming and tab/newline stripping, scheme parsing,
special-scheme slash forgiveness, authority parsing (userinfo, host, port,
bracketed IPv6 hosts kept verbatim), forbidden-host-character validation and
ASCII lowercasing of special-scheme hosts. Outside the model (treated as
parse failures or kept literal, and avoided by every concrete input in this
development): percent-encoded hosts (`%` is rejected), IDNA/punycode of
non-ASCII hosts, and IPv4/IPv6 canonicalization. -/

/-- Remove ASCII tab and newline anywhere, then trim C0 controls and spaces
at both ends (WHATWG URL pre-processing). -/
def urlStrip (url : String) : List Char :=
  let l := url.toList.filter fun c => !(c = '\t' || c = '\n' || c = '\r')
  ((l.dropWhile fun c => c.toNat ≤ 0x20).reverse.dropWhile fun c => c.toNat ≤ 0x20).reverse

def isSchemeChar (c : Char) : Bool :=
  c.isAlphanum || c = '+' || c = '-' || c = '.'

/-- Scan scheme characters until the mandatory `:`; fail at the end of input
or at any other character (such a URL is relative, and `new URL` has no
base argument here, so it throws). -/
def parseSchemeAux (acc : List Char) : List Char → Option (List Char × List Char)
  | [] => none
  | c :: rest =>
      if c = ':' then some (acc.reverse, rest)
      else if isSchemeChar c then parseSchemeAux (c :: acc) rest
      else none

/-- Parse `scheme ":"` (first character must be a letter); the scheme is
ASCII-lowercased. -/
def parseScheme (l : List Char) : Option (String × List Char) :=
  match l with
  | [] => none
  | c :: rest =>
      if c.isAlpha then
        (parseSchemeAux [c] rest).map fun p => (String.mk (p.1.map Char.toLower), p.2)
      else none

def specialSchemes : List String := ["ftp", "file", "http", "https", "ws", "wss"]

def isSlash (c : Char) : Bool := c = '/' || c = '\\'

/-- Characters after which the authority component ends. -/
def authorityEnd (special : Bool) (c : Char) : Bool :=
  c = '/' || c = '?' || c = '#' || (special && c = '\\')

/-- Forbidden host code points of the WHATWG URL standard (plus `%`, whose
percent-decoding is outside the model). -/
def forbiddenHostChar (c : Char) : Bool :=
  c.toNat = 0 || c = ' ' || c = '#' || c = '/' || c = ':' || c = '<' || c = '>' ||
  c = '?' || c = '@' || c = '[' || c = '\\' || c = ']' || c = '^' || c = '|' || c = '%'

/-- The host-port part of an authority: everything after the last `@`
(userinfo is discarded). -/
def afterLastAt (l : List Char) : List Char :=
  if l.contains '@' then (l.reverse.takeWhile fun c => c ≠ '@').reverse else l

/-- Numeric value of a decimal digit string. -/
def digitsToNat (l : List Char) : Nat :=
  l.foldl (fun acc c => acc * 10 + (c.toNat - 48)) 0

/-- Validate what follows the host: nothing, or `:` followed by an optional
decimal port of value at most 65535. -/
def portOk : List Char → Bool
  | [] => true
  | ':' :: ds =>
      if ds.isEmpty then true
      else ds.all Char.isDigit && decide (digitsToNat ds ≤ 65535)
  | _ => false

/-- Parse the authority into a hostname. Special non-file schemes require a
nonempty host; special-scheme hosts are lowercased; a `file` host of
`localhost` becomes the empty host. -/
def parseHostPort (special isFile : Bool) (auth : List Char) : Option String :=
  let hostPort := afterLastAt auth
  match hostPort with
  | [] => if special && !isFile then none else some ""
  | '[' :: r =>
      let inner := r.takeWhile fun c => c ≠ ']'
      match r.dropWhile fun c => c ≠ ']' with
      | ']' :: after =>
          if inner.isEmpty ||
              !(inner.all fun c =>
                c.isDigit || (('a' ≤ c && c ≤ 'f') || ('A' ≤ c && c ≤ 'F')) ||
                  c = ':' || c = '.') then none
          else if portOk after then some (String.mk ('[' :: (inner ++ [']']))) else none
      | _ => none
  | _ =>
      let host := hostPort.takeWhile fun c => c ≠ ':'
      let portPart := hostPort.dropWhile fun c => c ≠ ':'
      if host.any forbiddenHostChar then none
      else if !portOk portPart then none
      else if host.isEmpty then (if special && !isFile then none else some "")
      else
        let h := if special then String.mk (host.map Char.toLower) else String.mk host
        if isFile && h = "localhost" then some "" else some h

/-- Model of `new URL(url).hostname`: `none` models a thrown `TypeError`. -/
def extractHostname (url : String) : Option String :=
  match parseScheme (urlStrip url) with
  | none => none
  | some (scheme, rest) =>
      if scheme = "file" then
        match rest with
        | c1 :: c2 :: r =>
            if isSlash c1 && isSlash c2 then
              parseHostPort true true (r.takeWhile fun c => !authorityEnd true c)
            else some ""
        | _ => some ""
      else if specialSchemes.contains scheme then
        let r := rest.dropWhile isSlash
        parseHostPort true false (r.takeWhile fun c => !authorityEnd true c)
      else
        match rest with
        | '/' :: '/' :: r =>
            parseHostPort false false (r.takeWhile fun c => !authorityEnd false c)
        | _ => some ""

/-- Function `extractDomain(url)`: the hostname of `url`, or the literal fallback
`"other"` on any parse failure. -/
def extractDomain (url : String) : String :=
  (extractHostname url).getD "other"

/-! ### Domain grouping (src/lib/domain-grouper.js) -/

/-- The grouping key of a tab: `tab.domain || extractDomain(tab.url)`. -/
def tabGroupKey (tab : Tab) : String :=
  if tab.domain = "" then extractDomain tab.url else tab.domain

/-- Model of `groups[domain].push(tab)`, creating the key at the end of the object
(JS string keys keep insertion order) if it is new. -/
def pushGroup (k : String) (t : Tab) : List (String × List Tab) → List (String × List Tab)
  | [] => [(k, [t])]
  | g :: rest => if g.1 = k then (g.1, g.2 ++ [t]) :: rest else g :: pushGroup k t rest

/-- The `for (const tab of tabs)` accumulation loop of `groupTabsByDomain`. -/
def buildGroups : List Tab → List (String × List Tab) → List (String × List Tab)
  | [], acc => acc
  | t :: ts, acc => buildGroups ts (pushGroup (tabGroupKey t) t acc)

/-- Function `groupTabsByDomain(tabs)`: partition by group key, then stable-sort each
group by `dateAdded` descending (newest first). -/
def groupTabsByDomain (tabs : List Tab) : List (String × List Tab) :=
  (buildGroups tabs []).map fun g => (g.1, sortDescBy Tab.dateAdded g.2)

/-- The fixed well-known-host table of `getDomainDisplayName`. -/
def displayNames : List (String × String) :=
  [("github.com", "GitHub"), ("www.github.com", "GitHub"),
   ("youtube.com", "YouTube"), ("www.youtube.com", "YouTube"),
   ("twitter.com", "Twitter"), ("www.twitter.com", "Twitter"),
   ("x.com", "X (Twitter)"), ("www.x.com", "X (Twitter)"),
   ("linkedin.com", "LinkedIn"), ("www.linkedin.com", "LinkedIn"),
   ("reddit.com", "Reddit"), ("www.reddit.com", "Reddit"),
   ("stackoverflow.com", "Stack Overflow"), ("www.stackoverflow.com", "Stack Overflow"),
   ("medium.com", "Medium"), ("www.medium.com", "Medium"),
   ("notion.so", "Notion"), ("www.notion.so", "Notion"),
   ("figma.com", "Figma"), ("www.figma.com", "Figma"),
   ("docs.google.com", "Google Docs"), ("drive.google.com", "Google Drive"),
   ("mail.google.com", "Gmail"), ("calendar.google.com", "Google Calendar"),
   ("amazon.com", "Amazon"), ("www.amazon.com", "Amazon"),
   ("netflix.com", "Netflix"), ("www.netflix.com", "Netflix"),
   ("spotify.com", "Spotify"), ("open.spotify.com", "Spotify"),
   ("twitch.tv", "Twitch"), ("www.twitch.tv", "Twitch"),
   ("discord.com", "Discord"), ("www.discord.com", "Discord"),
   ("slack.com", "Slack"), ("app.slack.com", "Slack")]

/-- JS `s.charAt(0).toUpperCase() + s.slice(1)`. -/
def capitalizeFirst (s : String) : String :=
  match s.toList with
  | [] => ""
  | c :: cs => String.mk (c.toUpper :: cs)

/-- Function `getDomainDisplayName(domain)`: table lookup, else strip a leading
`www.` and, when the remainder still has a dot, title-case its first
dot-segment. -/
def getDomainDisplayName (domain : String) : String :=
  match displayNames.lookup domain with
  | some n => n
  | none =>
      let cleanDomain := if domain.startsWith "www." then domain.drop 4 else domain
      match cleanDomain.splitOn "." with
      | p :: _ :: _ => capitalizeFirst p
      | _ => cleanDomain

/-- Function `getDomainFavicon(domain)`: pure string formatting. -/
def getDomainFavicon (domain : String) : String :=
  "https://www.google.com/s2/favicons?domain=" ++ domain ++ "&sz=32"

/-- A JS string key that is an array index: the canonical decimal form of an
integer below 2^32 - 1. Such keys are enumerated before all other string
keys, in ascending numeric order. -/
def isArrayIndex (s : String) : Bool :=
  !s.toList.isEmpty && s.toList.all Char.isDigit &&
    (match s.toList with
     | '0' :: _ :: _ => false
     | _ => true) &&
    decide (digitsToNat s.toList < 4294967295)

/-- The `Object.keys` enumeration order for a string-keyed JS object whose
entries were created in the given order: array-index keys first in ascending
numeric order, then the remaining keys in insertion order. -/
def jsObjKeys (l : List (String × α)) : List String :=
  sortAscBy (fun s => digitsToNat s.toList) ((l.map Prod.fst).filter isArrayIndex) ++
    (l.map Prod.fst).filter fun s => !isArrayIndex s

/-- Model of `groups[k]` for a key known to be in the object. -/
def lookupGroup (groups : List (String × List Tab)) (k : String) : List Tab :=
  (groups.lookup k).getD []

structure DomainGroup where
  domain : String
  displayName : String
  tabs : List Tab
  count : Nat
deriving DecidableEq, Repr

/-- The record `getSortedDomainGroups` builds for one domain key. -/
def mkDomainGroup (groups : List (String × List Tab)) (domain : String) : DomainGroup :=
  { domain := domain
    displayName := getDomainDisplayName domain
    tabs := lookupGroup groups domain
    count := (lookupGroup groups domain).length }

/-- Function `getSortedDomainGroups(tabs)`: group, take `Object.keys`, stable-sort the
keys by group size descending, and build the display records. -/
def getSortedDomainGroups (tabs : List Tab) : List DomainGroup :=
  let groups := groupTabsByDomain tabs
  (sortDescBy (fun d => (lookupGroup groups d).length) (jsObjKeys groups)).map
    (mkDomainGroup groups)

/-! ### JSON serialization size (model of `JSON.stringify(data).length` used
by the migration capacity guard in src/lib/storage.js). Record fields are
serialized in property-creation order (the order `saveTab` / `addCustomLabel`
build them, `dateModified` appended on first update); `undefined` fields are
skipped, exactly as `JSON.stringify` does. -/

def hexDigitChar (n : Nat) : Char :=
  if n < 10 then Char.ofNat (48 + n) else Char.ofNat (87 + n)

/-- JSON string escaping of one character (`"`, `\`, and C0 controls). -/
def jsonEscapeChar (c : Char) : List Char :=
  if c = '"' then ['\\', '"']
  else if c = '\\' then ['\\', '\\']
  else if c = '\x08' then ['\\', 'b']
  else if c = '\x09' then ['\\', 't']
  else if c = '\x0a' then ['\\', 'n']
  else if c = '\x0c' then ['\\', 'f']
  else if c = '\x0d' then ['\\', 'r']
  else if c.toNat < 0x20 then
    ['\\', 'u', '0', '0', hexDigitChar (c.toNat / 16), hexDigitChar (c.toNat % 16)]
  else [c]

def jsonQuote (s : String) : String :=
  "\"" ++ String.mk (s.toList.flatMap jsonEscapeChar) ++ "\""

def jsonArr (elems : List String) : String :=
  "[" ++ String.intercalate "," elems ++ "]"

def tabJson (t : Tab) : String :=
  "\x7b\"id\":" ++ jsonQuote t.id ++
  ",\"url\":" ++ jsonQuote t.url ++
  ",\"domain\":" ++ jsonQuote t.domain ++
  ",\"title\":" ++ jsonQuote t.title ++
  ",\"description\":" ++ jsonQuote t.description ++
  ",\"labels\":" ++ jsonArr (t.labels.map jsonQuote) ++
  ",\"dateAdded\":" ++ Nat.repr t.dateAdded ++
  ",\"favicon\":" ++ jsonQuote t.favicon ++
  (match t.dateModified with
   | some m => ",\"dateModified\":" ++ Nat.repr m
   | none => "") ++ "\x7d"

def labelJson (l : Label) : String :=
  "\x7b\"id\":" ++ jsonQuote l.id ++
  ",\"name\":" ++ jsonQuote l.name ++
  ",\"color\":" ++ jsonQuote l.color ++
  ",\"isCustom\":" ++ (if l.isCustom then "true" else "false") ++ "\x7d"

/-- The object `chrome.storage.<area>.get(['tabs', 'customLabels'])`
resolves with: it carries only the keys present in the area. -/
structure Payload where
  tabs : Option (List Tab)
  customLabels : Option (List Label)
deriving DecidableEq, Repr

/-- Model of `JSON.stringify` of a payload object (absent keys are not serialized). -/
def payloadJson (p : Payload) : String :=
  "\x7b" ++ String.intercalate ","
    ((match p.tabs with
      | some ts => ["\"tabs\":" ++ jsonArr (ts.map tabJson)]
      | none => []) ++
     (match p.customLabels with
      | some ls => ["\"customLabels\":" ++ jsonArr (ls.map labelJson)]
      | none => [])) ++ "\x7d"

/-- Model of `JSON.stringify(data).length` of the migration payload. -/
def payloadSize (p : Payload) : Nat := jsLen (payloadJson p)

/-! ### Storage abstraction (src/lib/storage.js) -/

/-- The two `chrome.storage` areas. -/
structure StorageState where
  localArea : Store
  syncArea : Store
deriving DecidableEq, Repr

/-- Model of `fromMode === 'sync' ? chrome.storage.sync : chrome.storage.local`. -/
def areaOf (mode : String) (st : StorageState) : Store :=
  if mode = "sync" then st.syncArea else st.localArea

def updateArea (mode : String) (f : Store → Store) (st : StorageState) : StorageState :=
  if mode = "sync" then { st with syncArea := f st.syncArea }
  else { st with localArea := f st.localArea }

/-- Model of `fromStorage.get(['tabs', 'customLabels'])`. -/
def readPayload (mode : String) (st : StorageState) : Payload :=
  { tabs := (areaOf mode st).tabs, customLabels := (areaOf mode st).customLabels }

/-- Model of `toStorage.set(data)`: only the keys present in `data` are written. -/
def setPayload (p : Payload) (s : Store) : Store :=
  { s with
    tabs := match p.tabs with | some v => some v | none => s.tabs
    customLabels := match p.customLabels with | some v => some v | none => s.customLabels }

/-- Model of `fromStorage.remove(['tabs', 'customLabels'])`. -/
def removeTabsLabels (s : Store) : Store :=
  { s with tabs := none, customLabels := none }

/-- Function `migrateStorage(fromMode, toMode)`: read the payload from the source
area; when the destination is `sync` and the serialized payload exceeds
100,000 bytes, throw before writing anything; otherwise write the payload to
the destination area and then, when `fromMode !== 'local'`, remove the two
keys from the source area. -/
def migrateStorage (fromMode toMode : String) (st : StorageState) :
    Except String Unit × StorageState :=
  let data := readPayload fromMode st
  if toMode = "sync" ∧ 100000 < payloadSize data then
    (.error "Data too large for sync storage. Please reduce saved tabs first.", st)
  else
    let st1 := updateArea toMode (setPayload data) st
    if fromMode ≠ "local" then (.ok (), updateArea fromMode removeTabsLabels st1)
    else (.ok (), st1)

/-- Function `getSettings()`: stored settings over `DEFAULT_SETTINGS`; stored settings
records are modelled as complete, so the JS shallow spread degenerates to
returning the stored record when present. -/
def getSettings (s : Store) : Settings := s.settings.getD DEFAULT_SETTINGS

/-! ### Tab registry (src/lib/tabs-manager.js) -/

/-- The argument of `saveTab`; JS-absent `description` / `labels` / `favicon`
are modelled by their `|| `-fallback values. -/
structure TabData where
  url : String
  title : String
  description : String := ""
  labels : List String := []
  favicon : String := ""
deriving DecidableEq, Repr

/-- Function `saveTab(tabData)`: build the full record (fresh id, derived domain,
`dateAdded` = now, no `dateModified`), append, persist. -/
def saveTab (data : TabData) (genId : String) (now : Nat) (st : Store) : Tab × Store :=
  let newTab : Tab :=
    { id := genId
      url := data.url
      domain := extractDomain data.url
      title := data.title
      description := data.description
      labels := data.labels
      dateAdded := now
      favicon := data.favicon
      dateModified := none }
  (newTab, { st with tabs := some (st.tabs.getD [] ++ [newTab]) })

/-- The `updates` object of `updateTab`: an arbitrary subset of tab fields
(`none` = key absent from the object). -/
structure TabUpdates where
  id : Option String := none
  url : Option String := none
  domain : Option String := none
  title : Option String := none
  description : Option String := none
  labels : Option (List String) := none
  dateAdded : Option Nat := none
  favicon : Option String := none
  dateModified : Option Nat := none
deriving DecidableEq, Repr

/-- The JS spread `{...tabs[index], ...updates, dateModified: Date.now()}`:
every key present in `updates` overrides the stored record (including `id`),
and `dateModified` is then stamped unconditionally. -/
def mergeTab (t : Tab) (u : TabUpdates) (now : Nat) : Tab :=
  { id := u.id.getD t.id
    url := u.url.getD t.url
    domain := u.domain.getD t.domain
    title := u.title.getD t.title
    description := u.description.getD t.description
    labels := u.labels.getD t.labels
    dateAdded := u.dateAdded.getD t.dateAdded
    favicon := u.favicon.getD t.favicon
    dateModified := some now }

/-- Model of `tabs.findIndex(t => t.id === id)` followed by in-place replacement of
the first matching record: returns the merged record and the new list, or
`none` when no record matches. -/
def updateTabList (id : String) (u : TabUpdates) (now : Nat) :
    List Tab → Option (Tab × List Tab)
  | [] => none
  | t :: ts =>
      if t.id = id then
        let merged := mergeTab t u now
        some (merged, merged :: ts)
      else
        (updateTabList id u now ts).map fun r => (r.1, t :: r.2)

/-- Function `updateTab(id, updates)`: fail with "Tab not found" when no stored tab
has the id; otherwise merge, persist the whole collection, and return the
updated record. -/
def updateTab (id : String) (u : TabUpdates) (now : Nat) (st : Store) :
    Except String Tab × Store :=
  match updateTabList id u now (st.tabs.getD []) with
  | none => (.error "Tab not found", st)
  | some r => (.ok r.1, { st with tabs := some r.2 })

/-! ### Import/export reconciler (src/lib/import-export.js)

The import document is modelled with the schema of `exportToJSON`; the
structural checks of `validateImportData` (document non-null, `data`
present, `data.tabs` an array, `data.customLabels` an array when present)
hold by construction in the typed model, so only the per-tab `url` / `title`
truthiness checks can fail. -/

structure ImportDoc where
  version : String
  exportDate : String
  tabs : List Tab
  customLabels : Option (List Label)
  settings : Option Settings
deriving DecidableEq, Repr

/-- Function `exportToJSON()`: a full snapshot document of the three stored
collections (absent keys default to `[]` / the default settings). -/
def exportToJSON (exportDate : String) (s : Store) : ImportDoc :=
  { version := "1.0.0"
    exportDate := exportDate
    tabs := s.tabs.getD []
    customLabels := some (s.customLabels.getD [])
    settings := some (getSettings s) }

/-- The per-tab error strings collected by `validateImportData` (a JS-falsy,
i.e. empty, `url` or `title` is reported; validation does not early-exit). -/
def tabErrors (i : Nat) : List Tab → List String
  | [] => []
  | t :: ts =>
      (if t.url = "" then ["Tab at index " ++ Nat.repr i ++ " missing \"url\""] else []) ++
      (if t.title = "" then ["Tab at index " ++ Nat.repr i ++ " missing \"title\""] else []) ++
      tabErrors (i + 1) ts

/-- Function `validateImportData(data)`: the collected error list (valid iff empty). -/
def validateImportData (d : ImportDoc) : List String := tabErrors 0 d.tabs

/-- The merge-mode map `tab => ({...tab, id: tab.id || crypto.randomUUID(),
dateAdded: tab.dateAdded || Date.now()})`; `gen k` is the k-th fresh UUID the
call would draw. -/
def assignIdsAux (now : Nat) (gen : Nat → String) : Nat → List Tab → List Tab
  | _, [] => []
  | k, t :: ts =>
      { t with
        id := if t.id = "" then gen k else t.id
        dateAdded := if t.dateAdded = 0 then now else t.dateAdded } ::
        assignIdsAux now gen (k + 1) ts

structure ImportResult where
  tabsImported : Nat
  tabsSkipped : Nat
  labelsImported : Nat
deriving DecidableEq, Repr

/-- Function `importFromJSON(data, mode)`: validate (aborting the whole import on any
error); `replace` overwrites both collections; `merge` appends the imported
tabs whose url is not already stored (assigning missing ids / dates) and the
imported labels whose id is not already stored, then reports the counts. -/
def importFromJSON (d : ImportDoc) (mode : String) (now : Nat) (gen : Nat → String)
    (st : Store) : Except String ImportResult × Store :=
  let errors := validateImportData d
  if errors ≠ [] then
    (.error ("Invalid import data: " ++ String.intercalate ", " errors), st)
  else
    let importedTabs := d.tabs
    let importedLabels := d.customLabels.getD []
    if mode = "replace" then
      (.ok { tabsImported := importedTabs.length, tabsSkipped := 0,
             labelsImported := importedLabels.length },
       { st with tabs := some importedTabs, customLabels := some importedLabels })
    else
      let existingTabs := st.tabs.getD []
      let existingLabels := st.customLabels.getD []
      let newTabs := importedTabs.filter fun t => !(existingTabs.any fun e => e.url == t.url)
      let tabsToAdd := assignIdsAux now gen 0 newTabs
      let newLabels := importedLabels.filter fun l => !(existingLabels.any fun e => e.id == l.id)
      (.ok { tabsImported := tabsToAdd.length,
             tabsSkipped := importedTabs.length - tabsToAdd.length,
             labelsImported := newLabels.length },
       { st with tabs := some (existingTabs ++ tabsToAdd),
                 customLabels := some (existingLabels ++ newLabels) })

/-! ### Lemmas about the stable sort -/

theorem insertDescBy_perm (f : α → Nat) (x : α) (l : List α) :
    List.Perm (insertDescBy f x l) (x :: l) := by
  induction l with
  | nil => exact List.Perm.refl _
  | cons y ys ih =>
      simp only [insertDescBy]
      by_cases hc : f y ≤ f x
      · simp [hc]
      · simp only [hc, if_false]
        exact (ih.cons y).trans (List.Perm.swap x y ys)

theorem sortDescBy_perm (f : α → Nat) (l : List α) : List.Perm (sortDescBy f l) l := by
  induction l with
  | nil => exact List.Perm.refl _
  | cons x xs ih => exact (insertDescBy_perm f x _).trans (ih.cons x)

theorem pairwise_insertDescBy (f : α → Nat) (x : α) (l : List α)
    (h : l.Pairwise fun a b => f b ≤ f a) :
    (insertDescBy f x l).Pairwise fun a b => f b ≤ f a := by
  induction l with
  | nil => simp [insertDescBy]
  | cons y ys ih =>
      simp only [insertDescBy]
      by_cases hc : f y ≤ f x
      · rw [if_pos hc]
        refine List.Pairwise.cons ?_ h
        intro z hz
        rcases List.mem_cons.mp hz with rfl | hz
        · exact hc
        · exact le_trans (List.rel_of_pairwise_cons h hz) hc
      · simp only [hc, if_false]
        refine List.Pairwise.cons ?_ (ih h.of_cons)
        intro z hz
        have hz2 : z ∈ x :: ys := (insertDescBy_perm f x ys).mem_iff.mp hz
        rcases List.mem_cons.mp hz2 with rfl | hz3
        · exact Nat.le_of_not_le hc
        · exact List.rel_of_pairwise_cons h hz3

theorem pairwise_sortDescBy (f : α → Nat) (l : List α) :
    (sortDescBy f l).Pairwise fun a b => f b ≤ f a := by
  induction l with
  | nil => simp [sortDescBy]
  | cons x xs ih => exact pairwise_insertDescBy f x _ ih

/-- Stability of the insertion step, phrased through key-filtering: the
elements of any fixed key appear in the same order as before the insertion,
with `x` in front. -/
theorem filter_key_insertDescBy (f : α → Nat) (x : α) (k : Nat) (l : List α) :
    (insertDescBy f x l).filter (fun a => f a == k) =
      (if f x == k then [x] else []) ++ l.filter (fun a => f a == k) := by
  induction l with
  | nil => by_cases hk : f x = k <;> simp [insertDescBy, hk]
  | cons y ys ih =>
      simp only [insertDescBy]
      by_cases hc : f y ≤ f x
      · rw [if_pos hc]
        by_cases hk : f x = k <;> by_cases hy : f y = k <;>
          simp [List.filter_cons, hk, hy]
      · rw [if_neg hc, List.filter_cons, List.filter_cons, ih]
        by_cases hy : f y = k
        · have hk : ¬ f x = k := fun h => hc (by omega)
          simp [hy, hk]
        · simp [hy]

/-- Stability of the stable sort: for every key `k`, the elements of key `k`
come out in exactly the order they went in. -/
theorem filter_key_sortDescBy (f : α → Nat) (k : Nat) (l : List α) :
    (sortDescBy f l).filter (fun a => f a == k) = l.filter (fun a => f a == k) := by
  induction l with
  | nil => rfl
  | cons x xs ih =>
      simp only [sortDescBy, filter_key_insertDescBy, ih, List.filter_cons]
      by_cases hk : f x = k <;> simp [hk]

theorem insertDescBy_map (f : β → Nat) (h : α → β) (x : α) (l : List α) :
    insertDescBy f (h x) (l.map h) = (insertDescBy (fun a => f (h a)) x l).map h := by
  induction l with
  | nil => rfl
  | cons y ys ih =>
      simp only [List.map_cons, insertDescBy]
      by_cases hc : f (h y) ≤ f (h x) <;> simp [hc, ih]

theorem sortDescBy_map (f : β → Nat) (h : α → β) (l : List α) :
    sortDescBy f (l.map h) = (sortDescBy (fun a => f (h a)) l).map h := by
  induction l with
  | nil => rfl
  | cons x xs ih => simp only [List.map_cons, sortDescBy, ih, insertDescBy_map]

theorem sortDescBy_length (f : α → Nat) (l : List α) :
    (sortDescBy f l).length = l.length :=
  (sortDescBy_perm f l).length_eq

theorem filter_map_comm (p : β → Bool) (h : α → β) (l : List α) :
    (l.map h).filter p = (l.filter fun a => p (h a)).map h := by
  induction l with
  | nil => rfl
  | cons x xs ih => by_cases hx : p (h x) <;> simp [hx, ih]

/-! ### Claim C1 -/

/-- Claim C1: on a query that is empty, whitespace, or normalizes to empty,
`searchTabsWithRelevance` returns the input unchanged; otherwise it returns
exactly the tabs of positive additive score (title 10, domain 8, label 6,
description 4, url 2, summed per `relevanceScore`), ordered by descending
score, ties kept in original relative order (the stable descending sort of
the positively-scored sublist; permutation, descending-sortedness and
per-score-ties order preservation stated explicitly). -/
theorem searchTabsWithRelevance_correct (tabs : List Tab) (q : String) :
    ((jsTrim q = "" ∨ normalizeSearchText q = "") → searchTabsWithRelevance tabs q = tabs) ∧
    (jsTrim q ≠ "" → normalizeSearchText q ≠ "" →
      searchTabsWithRelevance tabs q =
        sortDescBy (relevanceScore (normalizeSearchText q))
          (tabs.filter fun t => decide (0 < relevanceScore (normalizeSearchText q) t)) ∧
      List.Perm (searchTabsWithRelevance tabs q)
        (tabs.filter fun t => decide (0 < relevanceScore (normalizeSearchText q) t)) ∧
      (searchTabsWithRelevance tabs q).Pairwise
        (fun a b => relevanceScore (normalizeSearchText q) b ≤
          relevanceScore (normalizeSearchText q) a) ∧
      ∀ k, 0 < k →
        (searchTabsWithRelevance tabs q).filter
            (fun t => relevanceScore (normalizeSearchText q) t == k) =
          tabs.filter (fun t => relevanceScore (normalizeSearchText q) t == k)) := by
  constructor
  · intro h
    rcases h with h | h
    · simp [searchTabsWithRelevance, h]
    · by_cases h1 : jsTrim q = ""
      · simp [searchTabsWithRelevance, h1]
      · simp [searchTabsWithRelevance, h1, h]
  · intro h1 h2
    have hmain : searchTabsWithRelevance tabs q =
        sortDescBy (relevanceScore (normalizeSearchText q))
          (tabs.filter fun t => decide (0 < relevanceScore (normalizeSearchText q) t)) := by
      simp only [searchTabsWithRelevance, h1, if_false, h2]
      rw [filter_map_comm, sortDescBy_map, List.map_map,
        show ((fun item : Tab × Nat => item.1) ∘
            fun tab : Tab => (tab, relevanceScore (normalizeSearchText q) tab)) =
          fun a : Tab => a from rfl, List.map_id']
    refine ⟨hmain, ?_, ?_, ?_⟩
    · rw [hmain]; exact sortDescBy_perm _ _
    · rw [hmain]; exact pairwise_sortDescBy _ _
    · intro k hk
      rw [hmain, filter_key_sortDescBy, List.filter_filter]
      refine List.filter_congr ?_
      intro t _
      by_cases ht : relevanceScore (normalizeSearchText q) t = k
      · simp [ht, hk]
      · simp [ht]

/-- A concrete tab whose title matches the query `git`. -/
def tabGit : Tab :=
  { id := "1", url := "https://github.com/x", domain := "github.com", title := "GitHub"
    description := "", labels := [], dateAdded := 10, favicon := "", dateModified := none }

/-- A concrete tab that matches `git` only through its url/domain. -/
def tabDigital : Tab :=
  { id := "2", url := "https://digital.com/", domain := "digital.com", title := "News"
    description := "", labels := [], dateAdded := 20, favicon := "", dateModified := none }

theorem searchTabsWithRelevance_correct_witness :
    jsTrim "git" ≠ "" ∧ normalizeSearchText "git" ≠ "" ∧
    searchTabsWithRelevance [tabDigital, tabGit] "git" =
      sortDescBy (relevanceScore (normalizeSearchText "git"))
        ([tabDigital, tabGit].filter fun t =>
          decide (0 < relevanceScore (normalizeSearchText "git") t)) :=
  ⟨by decide, by decide,
    ((searchTabsWithRelevance_correct [tabDigital, tabGit] "git").2
      (by decide) (by decide)).1⟩

/-! ### Lemmas about `updateTabList` -/

theorem updateTabList_not_found (id : String) (u : TabUpdates) (now : Nat) (l : List Tab)
    (h : ∀ t ∈ l, t.id ≠ id) : updateTabList id u now l = none := by
  induction l with
  | nil => rfl
  | cons t ts ih =>
      have ht : ¬ t.id = id := h t (List.mem_cons_self t ts)
      simp [updateTabList, ht, ih fun t' ht' => h t' (List.mem_cons_of_mem t ht')]

theorem updateTabList_found (id : String) (u : TabUpdates) (now : Nat)
    (pre : List Tab) (t : Tab) (post : List Tab)
    (hpre : ∀ p ∈ pre, p.id ≠ id) (ht : t.id = id) :
    updateTabList id u now (pre ++ t :: post) =
      some (mergeTab t u now, pre ++ mergeTab t u now :: post) := by
  induction pre with
  | nil => simp [updateTabList, ht]
  | cons p ps ih =>
      have hp : ¬ p.id = id := hpre p (List.mem_cons_self p ps)
      simp [updateTabList, hp, ih fun p' hp' => hpre p' (List.mem_cons_of_mem p hp')]

/-! ### Claim C6 -/

/-- Claim C6: `updateTab` on an absent id fails with the "not found" error
and leaves the store untouched (no partial commit); on a present id (first
occurrence decomposed as `pre ++ t :: post`) it shallow-merges the updates
over the record, stamps `dateModified` with the current time, persists the
collection in place and returns the updated record. -/
theorem updateTab_correct (id : String) (u : TabUpdates) (now : Nat) (st : Store) :
    ((∀ t ∈ st.tabs.getD [], t.id ≠ id) →
      updateTab id u now st = (.error "Tab not found", st)) ∧
    (∀ pre t post, st.tabs.getD [] = pre ++ t :: post →
      (∀ p ∈ pre, p.id ≠ id) → t.id = id →
      updateTab id u now st =
        (.ok (mergeTab t u now),
          { st with tabs := some (pre ++ mergeTab t u now :: post) })) := by
  constructor
  · intro h
    unfold updateTab
    rw [updateTabList_not_found id u now _ h]
  · intro pre t post hdec hpre ht
    unfold updateTab
    rw [hdec, updateTabList_found id u now pre t post hpre ht]

def wTabA : Tab :=
  { id := "a1", url := "https://a.com/", domain := "a.com", title := "A"
    description := "", labels := [], dateAdded := 1, favicon := "", dateModified := none }

def wTabB : Tab :=
  { id := "b2", url := "https://b.com/", domain := "b.com", title := "B"
    description := "", labels := ["work"], dateAdded := 2, favicon := "", dateModified := none }

def wStore : Store :=
  { tabs := some [wTabA, wTabB], customLabels := some [], settings := none }

theorem updateTab_correct_witness :
    updateTab "zz" { title := some "X" } 99 wStore = (.error "Tab not found", wStore) ∧
    updateTab "a1" { title := some "X" } 99 wStore =
      (.ok (mergeTab wTabA { title := some "X" } 99),
        { wStore with tabs := some ([] ++ mergeTab wTabA { title := some "X" } 99 :: [wTabB]) }) :=
  ⟨(updateTab_correct "zz" { title := some "X" } 99 wStore).1 (by decide),
   (updateTab_correct "a1" { title := some "X" } 99 wStore).2 [] wTabA [wTabB] rfl
     (by decide) (by decide)⟩

/-! ### Claim C9 -/

theorem updateTabList_ids (id : String) (u : TabUpdates) (now : Nat) (hu : u.id = none)
    (l : List Tab) :
    ∀ r l2, updateTabList id u now l = some (r, l2) →
      r.id = id ∧ l2.map Tab.id = l.map Tab.id := by
  induction l with
  | nil => intro r l2 h; simp [updateTabList] at h
  | cons t ts ih =>
      intro r l2 h
      by_cases hti : t.id = id
      · simp only [updateTabList, if_pos hti, Option.some.injEq, Prod.mk.injEq] at h
        obtain ⟨hr, hl2⟩ := h
        subst hr
        subst hl2
        constructor
        · simp [mergeTab, hu, hti]
        · simp [mergeTab, hu]
      · simp only [updateTabList, if_neg hti, Option.map_eq_some'] at h
        obtain ⟨⟨r0, l0⟩, hrec, hpair⟩ := h
        obtain ⟨hr, hl2⟩ := Prod.mk.injEq .. ▸ hpair
        subst hr
        subst hl2
        obtain ⟨h1, h2⟩ := ih r0 l0 hrec
        exact ⟨h1, by simp [h2]⟩

/-- Claim C9 counterexample: `updateTab` does not keep ids immutable for
every updates object — an updates object carrying an `id` key overwrites the
stored id through the JS spread. -/
theorem updateTab_id_counterexample :
    (updateTab "a1" { id := some "zz" } 5
        { tabs := some [wTabA], customLabels := none, settings := none }).2.tabs =
      some [{ id := "zz", url := "https://a.com/", domain := "a.com", title := "A"
              description := "", labels := [], dateAdded := 1, favicon := ""
              dateModified := some 5 }] ∧
    "zz" ≠ "a1" := by
  constructor
  · rfl
  · decide

/-- Claim C9 (amended): for every updates object that does not carry an `id`
key, `updateTab` preserves the id of the updated tab (the returned record
keeps the looked-up id) and the ids of all other stored tabs. -/
theorem updateTab_id_immutable (id : String) (u : TabUpdates) (now : Nat) (st : Store)
    (hu : u.id = none) :
    (((updateTab id u now st).2).tabs.getD []).map Tab.id = (st.tabs.getD []).map Tab.id ∧
    ∀ r, (updateTab id u now st).1 = .ok r → r.id = id := by
  unfold updateTab
  cases hul : updateTabList id u now (st.tabs.getD []) with
  | none => exact ⟨rfl, fun r hr => by simp at hr⟩
  | some p =>
      obtain ⟨hid, hmap⟩ := updateTabList_ids id u now hu _ p.1 p.2 (by rw [hul])
      refine ⟨hmap, ?_⟩
      intro r hr
      simp only [Except.ok.injEq] at hr
      subst hr
      exact hid

theorem updateTab_id_immutable_witness :
    (((updateTab "a1" { title := some "T" } 7 wStore).2).tabs.getD []).map Tab.id =
      ([wTabA, wTabB].map Tab.id) ∧
    ∀ r, (updateTab "a1" { title := some "T" } 7 wStore).1 = .ok r → r.id = "a1" :=
  updateTab_id_immutable "a1" { title := some "T" } 7 wStore rfl

/-! ### Claim C10 -/

/-- Claim C10: `importFromJSON` writes only the `tabs` and `customLabels`
keys: in both modes (and on validation failure) the stored `settings` object
is unchanged — replace mode never writes the document's `data.settings`
even though `exportToJSON` includes settings in the document. -/
theorem importFromJSON_settings_frame (d : ImportDoc) (mode : String) (now : Nat)
    (gen : Nat → String) (st : Store) :
    ((importFromJSON d mode now gen st).2).settings = st.settings := by
  simp only [importFromJSON]
  split
  · rfl
  · split <;> rfl

/-! ### Claim C3 -/

theorem tabErrors_eq_nil (i : Nat) (l : List Tab)
    (h : ∀ t ∈ l, t.url ≠ "" ∧ t.title ≠ "") : tabErrors i l = [] := by
  induction l generalizing i with
  | nil => rfl
  | cons t ts ih =>
      have ht := h t (List.mem_cons_self t ts)
      simp [tabErrors, ht.1, ht.2, ih _ fun t' ht' => h t' (List.mem_cons_of_mem t ht')]

def cTabEmptyTitle : Tab :=
  { id := "e1", url := "https://example.com/", domain := "example.com", title := ""
    description := "", labels := [], dateAdded := 3, favicon := "", dateModified := none }

def cStoreEmptyTitle : Store :=
  { tabs := some [cTabEmptyTitle], customLabels := some [], settings := none }

/-- Claim C3 counterexample: a legal stored state (the spec's data model
allows an empty title) whose own export is rejected by the import
validation: the replace round-trip fails with a validation error instead of
performing the restoring import. -/
theorem export_import_replace_counterexample :
    (importFromJSON (exportToJSON "2024-01-01T00:00:00.000Z" cStoreEmptyTitle) "replace"
        0 (fun _ => "u") cStoreEmptyTitle).1 =
      .error "Invalid import data: Tab at index 0 missing \"title\"" := by
  rfl

/-- Claim C3 (amended): for every stored state whose tabs all have non-empty
`url` and `title`, the replace round-trip `importFromJSON(exportToJSON(),
"replace")` succeeds and restores the stored tab, custom-label and settings
collections exactly as they were before the export. -/
theorem export_import_replace_roundtrip (exportDate : String) (now : Nat)
    (gen : Nat → String) (st : Store)
    (h : ∀ t ∈ st.tabs.getD [], t.url ≠ "" ∧ t.title ≠ "") :
    (importFromJSON (exportToJSON exportDate st) "replace" now gen st).1 =
      .ok { tabsImported := (st.tabs.getD []).length, tabsSkipped := 0,
            labelsImported := (st.customLabels.getD []).length } ∧
    ((importFromJSON (exportToJSON exportDate st) "replace" now gen st).2).tabs.getD [] =
      st.tabs.getD [] ∧
    ((importFromJSON (exportToJSON exportDate st) "replace" now gen st).2).customLabels.getD []
      = st.customLabels.getD [] ∧
    ((importFromJSON (exportToJSON exportDate st) "replace" now gen st).2).settings =
      st.settings := by
  have hv : validateImportData (exportToJSON exportDate st) = [] :=
    tabErrors_eq_nil 0 _ h
  simp only [exportToJSON] at hv
  simp [importFromJSON, hv, exportToJSON]

theorem export_import_replace_roundtrip_witness :
    (importFromJSON (exportToJSON "d" wStore) "replace" 4 (fun _ => "u") wStore).1 =
      .ok { tabsImported := ([wTabA, wTabB] : List Tab).length, tabsSkipped := 0,
            labelsImported := ([] : List Label).length } ∧
    ((importFromJSON (exportToJSON "d" wStore) "replace" 4 (fun _ => "u") wStore).2).tabs.getD []
      = (wStore.tabs.getD []) ∧
    ((importFromJSON (exportToJSON "d" wStore) "replace" 4
        (fun _ => "u") wStore).2).customLabels.getD [] = wStore.customLabels.getD [] ∧
    ((importFromJSON (exportToJSON "d" wStore) "replace" 4 (fun _ => "u") wStore).2).settings =
      wStore.settings :=
  export_import_replace_roundtrip "d" 4 (fun _ => "u") wStore (by decide)

/-! ### Lemmas about the merge branch of `importFromJSON` -/

theorem assignIdsAux_length (now : Nat) (gen : Nat → String) (k : Nat) (l : List Tab) :
    (assignIdsAux now gen k l).length = l.length := by
  induction l generalizing k with
  | nil => rfl
  | cons t ts ih => simp [assignIdsAux, ih]

theorem assignIdsAux_map_url (now : Nat) (gen : Nat → String) (k : Nat) (l : List Tab) :
    (assignIdsAux now gen k l).map Tab.url = l.map Tab.url := by
  induction l generalizing k with
  | nil => rfl
  | cons t ts ih => simp [assignIdsAux, ih]

/-- Unfolding of a valid merge-mode import. -/
theorem importFromJSON_merge_eq (d : ImportDoc) (now : Nat) (gen : Nat → String) (st : Store)
    (hv : validateImportData d = []) :
    importFromJSON d "merge" now gen st =
      (.ok { tabsImported := (assignIdsAux now gen 0 (d.tabs.filter fun t =>
                !((st.tabs.getD []).any fun e => e.url == t.url))).length,
             tabsSkipped := d.tabs.length - (assignIdsAux now gen 0 (d.tabs.filter fun t =>
                !((st.tabs.getD []).any fun e => e.url == t.url))).length,
             labelsImported := ((d.customLabels.getD []).filter fun l =>
                !((st.customLabels.getD []).any fun e => e.id == l.id)).length },
       { st with
          tabs := some ((st.tabs.getD []) ++ assignIdsAux now gen 0 (d.tabs.filter fun t =>
            !((st.tabs.getD []).any fun e => e.url == t.url))),
          customLabels := some ((st.customLabels.getD []) ++
            (d.customLabels.getD []).filter fun l =>
              !((st.customLabels.getD []).any fun e => e.id == l.id)) }) := by
  simp [importFromJSON, hv]

/-- After one merge of a document, every url of the document is present in
the stored collection. -/
theorem urls_present_after_merge (now : Nat) (gen : Nat → String) (E I : List Tab)
    (t : Tab) (hmem : t ∈ I) :
    ((E ++ assignIdsAux now gen 0 (I.filter fun tb => !(E.any fun e => e.url == tb.url))).any
      fun e => e.url == t.url) = true := by
  rw [List.any_append]
  by_cases hE : (E.any fun e => e.url == t.url) = true
  · simp [hE]
  · have htf : t ∈ I.filter fun tb => !(E.any fun e => e.url == tb.url) :=
      List.mem_filter.mpr ⟨hmem, by simp [hE]⟩
    have hmap : t.url ∈ (assignIdsAux now gen 0
        (I.filter fun tb => !(E.any fun e => e.url == tb.url))).map Tab.url := by
      rw [assignIdsAux_map_url]
      exact List.mem_map.mpr ⟨t, htf, rfl⟩
    obtain ⟨a, ha, hau⟩ := List.mem_map.mp hmap
    have hA : ((assignIdsAux now gen 0
        (I.filter fun tb => !(E.any fun e => e.url == tb.url))).any
          fun e => e.url == t.url) = true :=
      List.any_eq_true.mpr ⟨a, ha, by simp [hau]⟩
    simp [hA]

/-- After one merge of a document, every label id of the document is present
in the stored label collection. -/
theorem labels_present_after_merge (EL I : List Label) (l : Label) (hmem : l ∈ I) :
    ((EL ++ I.filter fun lb => !(EL.any fun e => e.id == lb.id)).any
      fun e => e.id == l.id) = true := by
  rw [List.any_append]
  by_cases hE : (EL.any fun e => e.id == l.id) = true
  · simp [hE]
  · have htf : l ∈ I.filter fun lb => !(EL.any fun e => e.id == lb.id) :=
      List.mem_filter.mpr ⟨hmem, by simp [hE]⟩
    have hA : ((I.filter fun lb => !(EL.any fun e => e.id == lb.id)).any
        fun e => e.id == l.id) = true :=
      List.any_eq_true.mpr ⟨l, htf, by simp⟩
    simp [hA]

/-! ### Claim C4 -/

def c4Tab : Tab :=
  { id := "x", url := "https://a.com/", domain := "a.com", title := "A"
    description := "", labels := [], dateAdded := 1, favicon := "", dateModified := none }

def c4Doc : ImportDoc :=
  { version := "1.0.0", exportDate := "d", tabs := [c4Tab]
    customLabels := some [], settings := none }

def c4St : Store := { tabs := some [c4Tab], customLabels := some [], settings := none }

/-- Claim C4 counterexample: importing a document whose only tab url is
already stored, twice. The first run returns `tabsImported = 0`; the second
run returns `tabsSkipped = 1` — the total document size — which differs from
the first run's `tabsImported` as the claim would require. -/
theorem merge_import_idempotent_counterexample :
    (importFromJSON c4Doc "merge" 0 (fun _ => "g") c4St).1 =
      .ok { tabsImported := 0, tabsSkipped := 1, labelsImported := 0 } ∧
    (importFromJSON c4Doc "merge" 1 (fun _ => "h")
        (importFromJSON c4Doc "merge" 0 (fun _ => "g") c4St).2).1 =
      .ok { tabsImported := 0, tabsSkipped := 1, labelsImported := 0 } ∧
    (1 : Nat) ≠ 0 :=
  ⟨rfl, rfl, by decide⟩

/-- Claim C4 (amended): running a valid merge import a second time imports
nothing new — the second run returns `tabsImported = 0`, `labelsImported =
0` and leaves the store exactly as the first run left it — and its
`tabsSkipped` is the total number of document tabs, i.e. the first run's
`tabsImported + tabsSkipped` (not, as claimed, the first run's
`tabsImported` alone, which is smaller whenever the first run skipped
anything). -/
theorem merge_import_idempotent (d : ImportDoc) (now1 now2 : Nat) (gen1 gen2 : Nat → String)
    (st : Store) (hv : validateImportData d = []) :
    importFromJSON d "merge" now2 gen2 (importFromJSON d "merge" now1 gen1 st).2 =
      (.ok { tabsImported := 0, tabsSkipped := d.tabs.length, labelsImported := 0 },
        (importFromJSON d "merge" now1 gen1 st).2) ∧
    ∀ r1, (importFromJSON d "merge" now1 gen1 st).1 = .ok r1 →
      r1.tabsImported + r1.tabsSkipped = d.tabs.length := by
  rw [importFromJSON_merge_eq d now1 gen1 st hv]
  constructor
  · rw [importFromJSON_merge_eq d now2 gen2 _ hv]
    have htabs : d.tabs.filter (fun t =>
        !((((st.tabs.getD []) ++ assignIdsAux now1 gen1 0 (d.tabs.filter fun tb =>
          !((st.tabs.getD []).any fun e => e.url == tb.url)))).any
            fun e => e.url == t.url)) = [] := by
      rw [List.filter_eq_nil_iff]
      intro t ht
      simp [urls_present_after_merge now1 gen1 (st.tabs.getD []) d.tabs t ht]
    have hlabels : (d.customLabels.getD []).filter (fun l =>
        !((((st.customLabels.getD []) ++ (d.customLabels.getD []).filter fun lb =>
          !((st.customLabels.getD []).any fun e => e.id == lb.id))).any
            fun e => e.id == l.id)) = [] := by
      rw [List.filter_eq_nil_iff]
      intro l hl
      simp [labels_present_after_merge (st.customLabels.getD []) (d.customLabels.getD []) l hl]
    simp only [Option.getD_some]
    rw [htabs, hlabels]
    simp [assignIdsAux]
  · intro r1 hr1
    simp only [Except.ok.injEq] at hr1
    subst hr1
    simp only []
    have hle : (assignIdsAux now1 gen1 0 (d.tabs.filter fun t =>
        !((st.tabs.getD []).any fun e => e.url == t.url))).length ≤ d.tabs.length := by
      rw [assignIdsAux_length]
      exact le_trans (List.length_filter_le _ _) (le_refl _)
    omega

def w4Tab : Tab :=
  { id := "n1", url := "https://n.com/", domain := "n.com", title := "N"
    description := "", labels := [], dateAdded := 9, favicon := "", dateModified := none }

def w4Doc : ImportDoc :=
  { version := "1.0.0", exportDate := "d", tabs := [w4Tab]
    customLabels := some [], settings := none }

theorem merge_import_idempotent_witness :
    importFromJSON w4Doc "merge" 2 (fun _ => "g2")
        (importFromJSON w4Doc "merge" 1 (fun _ => "g1") wStore).2 =
      (.ok { tabsImported := 0, tabsSkipped := w4Doc.tabs.length, labelsImported := 0 },
        (importFromJSON w4Doc "merge" 1 (fun _ => "g1") wStore).2) ∧
    ∀ r1, (importFromJSON w4Doc "merge" 1 (fun _ => "g1") wStore).1 = .ok r1 →
      r1.tabsImported + r1.tabsSkipped = w4Doc.tabs.length :=
  merge_import_idempotent w4Doc 1 2 (fun _ => "g1") (fun _ => "g2") wStore rfl

/-! ### Claim C8 -/

def c8TabP : Tab :=
  { id := "p", url := "https://dup.com/", domain := "dup.com", title := "P"
    description := "", labels := [], dateAdded := 1, favicon := "", dateModified := none }

def c8TabQ : Tab :=
  { id := "q", url := "https://dup.com/", domain := "dup.com", title := "Q"
    description := "", labels := [], dateAdded := 2, favicon := "", dateModified := none }

def c8Doc : ImportDoc :=
  { version := "1.0.0", exportDate := "d", tabs := [c8TabP, c8TabQ]
    customLabels := some [], settings := none }

def c8St : Store := { tabs := some [], customLabels := some [], settings := none }

/-- Claim C8 counterexample: merging a document that itself contains two
tabs with the same url into a duplicate-free store produces a store with two
tabs sharing a url — the merge dedup only checks the pre-existing url set,
not the batch being imported. -/
theorem merge_url_unique_counterexample :
    ((c8St.tabs.getD []).map Tab.url).Nodup ∧
    ¬ ((((importFromJSON c8Doc "merge" 0 (fun _ => "g") c8St).2).tabs.getD []).map
        Tab.url).Nodup := by
  constructor
  · decide
  · decide

/-- Claim C8 (amended): merge-import preserves url-uniqueness of the stored
collection provided the imported document's tabs also have pairwise distinct
urls (the counterexample shows the proviso is necessary: in-document
duplicates are not deduplicated). -/
theorem merge_import_url_unique (d : ImportDoc) (now : Nat) (gen : Nat → String) (st : Store)
    (hst : ((st.tabs.getD []).map Tab.url).Nodup)
    (hd : (d.tabs.map Tab.url).Nodup) :
    ((((importFromJSON d "merge" now gen st).2).tabs.getD []).map Tab.url).Nodup := by
  by_cases hv : validateImportData d = []
  · rw [importFromJSON_merge_eq d now gen st hv]
    simp only [Option.getD_some]
    rw [List.map_append, assignIdsAux_map_url, List.nodup_append]
    refine ⟨hst, ?_, ?_⟩
    · exact ((List.filter_sublist _).map Tab.url).nodup hd
    · intro u hu1 hu2
      obtain ⟨t, htf, htu⟩ := List.mem_map.mp hu2
      have hpred := (List.mem_filter.mp htf).2
      obtain ⟨e, heE, heu⟩ := List.mem_map.mp hu1
      have : (st.tabs.getD []).any (fun e2 => e2.url == t.url) = true :=
        List.any_eq_true.mpr ⟨e, heE, by simp [heu, htu]⟩
      simp [this] at hpred
  · have : importFromJSON d "merge" now gen st = (.error ("Invalid import data: " ++
        String.intercalate ", " (validateImportData d)), st) := by
      simp [importFromJSON, hv]
    rw [this]
    exact hst

theorem merge_import_url_unique_witness :
    ((((importFromJSON w4Doc "merge" 3 (fun _ => "g") wStore).2).tabs.getD []).map
      Tab.url).Nodup :=
  merge_import_url_unique w4Doc 3 (fun _ => "g") wStore (by decide) (by decide)

/-! ### Claim C7 -/

/-- Claim C7 counterexample: `extractDomain` is not idempotent — a
successfully parsed URL yields a bare hostname, and a bare hostname has no
scheme, so it is a relative URL that the parser rejects, collapsing the
second application to `"other"`. -/
theorem extractDomain_idempotent_counterexample :
    extractDomain "https://github.com/x" = "github.com" ∧
    extractDomain (extractDomain "https://github.com/x") = "other" ∧
    ("other" : String) ≠ "github.com" :=
  ⟨rfl, rfl, by decide⟩

/-- Claim C7 (amended): `extractDomain` is deterministic (it is a pure
function of its argument — callers never observe two different results for
one url), and every malformed URL (one the parser rejects) yields the
literal fallback `"other"`; the claimed idempotence, refuted in general by
the counterexample, survives exactly on the fallback value: when
`extractDomain u = "other"`, applying it again is a fixed point. -/
theorem extractDomain_fallback_and_idempotence (u : String) :
    (extractHostname u = none → extractDomain u = "other") ∧
    (extractDomain u = "other" → extractDomain (extractDomain u) = extractDomain u) := by
  constructor
  · intro h
    simp [extractDomain, h]
  · intro h
    rw [h]
    rfl

theorem extractDomain_fallback_witness :
    extractDomain "notaurl" = "other" ∧
    extractDomain (extractDomain "notaurl") = extractDomain "notaurl" :=
  ⟨(extractDomain_fallback_and_idempotence "notaurl").1 rfl,
   (extractDomain_fallback_and_idempotence "notaurl").2
     ((extractDomain_fallback_and_idempotence "notaurl").1 rfl)⟩

/-! ### Lemmas about domain grouping -/

theorem insertAscBy_perm (f : α → Nat) (x : α) (l : List α) :
    List.Perm (insertAscBy f x l) (x :: l) := by
  induction l with
  | nil => exact List.Perm.refl _
  | cons y ys ih =>
      simp only [insertAscBy]
      by_cases hc : f x ≤ f y
      · simp [hc]
      · simp only [hc, if_false]
        exact (ih.cons y).trans (List.Perm.swap x y ys)

theorem sortAscBy_perm (f : α → Nat) (l : List α) : List.Perm (sortAscBy f l) l := by
  induction l with
  | nil => exact List.Perm.refl _
  | cons x xs ih => exact (insertAscBy_perm f x _).trans (ih.cons x)

theorem map_congr_mem (l : List α) (f g : α → β) (h : ∀ a ∈ l, f a = g a) :
    l.map f = l.map g := by
  induction l with
  | nil => rfl
  | cons x xs ih =>
      simp [h x (List.mem_cons_self x xs), ih fun a ha => h a (List.mem_cons_of_mem x ha)]

/-- The key sequence of the grouping object, in insertion order. -/
def keysOf (l : List (String × List Tab)) : List String := l.map Prod.fst

/-- Total number of tabs held across all groups. -/
def totalLen (l : List (String × List Tab)) : Nat := (l.map fun g => g.2.length).sum

theorem pushGroup_totalLen (k : String) (t : Tab) (acc : List (String × List Tab)) :
    totalLen (pushGroup k t acc) = totalLen acc + 1 := by
  induction acc with
  | nil => rfl
  | cons g rest ih =>
      by_cases hg : g.1 = k
      · simp [pushGroup, hg, totalLen]
        omega
      · simp only [pushGroup, hg, if_false]
        simp only [totalLen, List.map_cons, List.sum_cons] at ih ⊢
        omega

theorem buildGroups_totalLen (ts : List Tab) (acc : List (String × List Tab)) :
    totalLen (buildGroups ts acc) = totalLen acc + ts.length := by
  induction ts generalizing acc with
  | nil => simp [buildGroups]
  | cons t ts2 ih =>
      simp only [buildGroups, List.length_cons]
      rw [ih, pushGroup_totalLen]
      omega

theorem pushGroup_keys_mem (k : String) (t : Tab) (acc : List (String × List Tab))
    (h : k ∈ keysOf acc) : keysOf (pushGroup k t acc) = keysOf acc := by
  induction acc with
  | nil => simp [keysOf] at h
  | cons g rest ih =>
      by_cases hg : g.1 = k
      · simp [pushGroup, hg, keysOf]
      · have h2 : k ∈ keysOf rest := by
          simp only [keysOf, List.map_cons, List.mem_cons] at h
          rcases h with h | h
          · exact absurd h.symm hg
          · exact h
        have ih2 := ih h2
        simp only [keysOf] at ih2 ⊢
        simp only [pushGroup, if_neg hg, List.map_cons]
        rw [ih2]

theorem pushGroup_keys_not_mem (k : String) (t : Tab) (acc : List (String × List Tab))
    (h : k ∉ keysOf acc) : keysOf (pushGroup k t acc) = keysOf acc ++ [k] := by
  induction acc with
  | nil => rfl
  | cons g rest ih =>
      have hg : ¬ g.1 = k := by
        intro he
        exact h (by simp [keysOf, he])
      have h2 : k ∉ keysOf rest := fun hk => h (by simp [keysOf] at hk ⊢; exact .inr hk)
      have ih2 := ih h2
      simp only [keysOf] at ih2 ⊢
      simp only [pushGroup, if_neg hg, List.map_cons]
      rw [ih2]
      rfl

theorem keysOf_nodup_pushGroup (k : String) (t : Tab) (acc : List (String × List Tab))
    (h : (keysOf acc).Nodup) : (keysOf (pushGroup k t acc)).Nodup := by
  by_cases hm : k ∈ keysOf acc
  · rw [pushGroup_keys_mem _ _ _ hm]
    exact h
  · rw [pushGroup_keys_not_mem _ _ _ hm, List.nodup_append]
    refine ⟨h, List.nodup_singleton k, ?_⟩
    intro a ha hb
    rw [List.mem_singleton] at hb
    subst hb
    exact hm ha

theorem buildGroups_keys_nodup (ts : List Tab) (acc : List (String × List Tab))
    (h : (keysOf acc).Nodup) : (keysOf (buildGroups ts acc)).Nodup := by
  induction ts generalizing acc with
  | nil => exact h
  | cons t ts2 ih => exact ih _ (keysOf_nodup_pushGroup _ _ _ h)

theorem lookupGroup_cons_self (k : String) (ts : List Tab)
    (rest : List (String × List Tab)) : lookupGroup ((k, ts) :: rest) k = ts := by
  simp [lookupGroup, List.lookup]

theorem lookupGroup_cons_ne (k k2 : String) (ts : List Tab)
    (rest : List (String × List Tab)) (h : k ≠ k2) :
    lookupGroup ((k2, ts) :: rest) k = lookupGroup rest k := by
  have hb : (k == k2) = false := beq_eq_false_iff_ne.mpr h
  simp [lookupGroup, List.lookup, hb]

theorem sum_lookup_keys (l : List (String × List Tab)) (h : (keysOf l).Nodup) :
    ((keysOf l).map fun k => (lookupGroup l k).length).sum = totalLen l := by
  induction l with
  | nil => rfl
  | cons g rest ih =>
      obtain ⟨k0, ts0⟩ := g
      have hcons : keysOf ((k0, ts0) :: rest) = k0 :: keysOf rest := rfl
      rw [hcons] at h ⊢
      obtain ⟨hk0, hrest⟩ := List.nodup_cons.mp h
      rw [List.map_cons, List.sum_cons, lookupGroup_cons_self]
      have hmap : (keysOf rest).map (fun k => (lookupGroup ((k0, ts0) :: rest) k).length) =
          (keysOf rest).map (fun k => (lookupGroup rest k).length) := by
        apply map_congr_mem
        intro a ha
        rw [lookupGroup_cons_ne a k0 ts0 rest (fun he => hk0 (he ▸ ha))]
      rw [hmap, ih hrest]
      rfl

theorem jsObjKeys_perm (l : List (String × List Tab)) :
    List.Perm (jsObjKeys l) (l.map Prod.fst) := by
  unfold jsObjKeys
  have h1 := sortAscBy_perm (fun s : String => digitsToNat s.toList)
    ((l.map Prod.fst).filter isArrayIndex)
  exact (h1.append_right _).trans (List.filter_append_perm _ _)

theorem keysOf_groupTabsByDomain (tabs : List Tab) :
    keysOf (groupTabsByDomain tabs) = keysOf (buildGroups tabs []) := by
  simp [groupTabsByDomain, keysOf, List.map_map]

theorem totalLen_groupTabsByDomain (tabs : List Tab) :
    totalLen (groupTabsByDomain tabs) = tabs.length := by
  unfold groupTabsByDomain
  have hs : totalLen ((buildGroups tabs []).map fun g =>
      (g.1, sortDescBy Tab.dateAdded g.2)) = totalLen (buildGroups tabs []) := by
    unfold totalLen
    rw [List.map_map]
    congr 1
    apply map_congr_mem
    intro g _
    simp [sortDescBy_length]
  rw [hs, buildGroups_totalLen]
  simp [totalLen]

theorem keysOf_groupTabsByDomain_nodup (tabs : List Tab) :
    (keysOf (groupTabsByDomain tabs)).Nodup := by
  rw [keysOf_groupTabsByDomain]
  exact buildGroups_keys_nodup tabs [] List.nodup_nil

/-! ### Claim C5 -/

def c5TabB : Tab :=
  { id := "1", url := "", domain := "b.com", title := "B"
    description := "", labels := [], dateAdded := 1, favicon := "", dateModified := none }

def c5Tab42 : Tab :=
  { id := "2", url := "", domain := "42", title := "F"
    description := "", labels := [], dateAdded := 2, favicon := "", dateModified := none }

/-- Claim C5 counterexample: the two groups `b.com` and `42` tie at count 1
and `b.com` is encountered first, yet the output lists `42` first — JS
`Object.keys` enumerates array-index-like string keys (such as `"42"`)
before all other keys, so count ties are not kept in first-encounter order
when such a key is present. -/
theorem getSortedDomainGroups_tie_counterexample :
    (getSortedDomainGroups [c5TabB, c5Tab42]).map DomainGroup.count = [1, 1] ∧
    (groupTabsByDomain [c5TabB, c5Tab42]).map Prod.fst = ["b.com", "42"] ∧
    (getSortedDomainGroups [c5TabB, c5Tab42]).map DomainGroup.domain = ["42", "b.com"] := by
  refine ⟨by decide, by decide, by decide⟩

/-- Claim C5 (amended): the groups of `getSortedDomainGroups` always
partition the input (their counts sum to the number of tabs) and are ordered
by descending count; the claimed first-encounter tie-break holds under the
proviso that no group key is an array-index-like string — then the output is
exactly the stable descending-by-count sort of the first-encounter key
sequence (for array-index keys, `Object.keys` enumeration reorders the tie
base order, as the counterexample shows). -/
theorem getSortedDomainGroups_spec (tabs : List Tab) :
    (((getSortedDomainGroups tabs).map DomainGroup.count).sum = tabs.length) ∧
    ((getSortedDomainGroups tabs).Pairwise fun a b => b.count ≤ a.count) ∧
    ((∀ k ∈ (groupTabsByDomain tabs).map Prod.fst, isArrayIndex k = false) →
      getSortedDomainGroups tabs =
        (sortDescBy (fun d => (lookupGroup (groupTabsByDomain tabs) d).length)
          ((groupTabsByDomain tabs).map Prod.fst)).map
            (mkDomainGroup (groupTabsByDomain tabs))) := by
  refine ⟨?_, ?_, ?_⟩
  · unfold getSortedDomainGroups
    rw [List.map_map]
    have hcomp : (DomainGroup.count ∘ mkDomainGroup (groupTabsByDomain tabs)) =
        fun d => (lookupGroup (groupTabsByDomain tabs) d).length := rfl
    rw [hcomp]
    have hperm : List.Perm
        ((sortDescBy (fun d => (lookupGroup (groupTabsByDomain tabs) d).length)
          (jsObjKeys (groupTabsByDomain tabs))).map
            fun d => (lookupGroup (groupTabsByDomain tabs) d).length)
        ((keysOf (groupTabsByDomain tabs)).map
          fun d => (lookupGroup (groupTabsByDomain tabs) d).length) :=
      ((sortDescBy_perm _ _).trans (jsObjKeys_perm _)).map _
    rw [hperm.sum_eq, sum_lookup_keys _ (keysOf_groupTabsByDomain_nodup tabs),
      totalLen_groupTabsByDomain]
  · unfold getSortedDomainGroups
    rw [List.pairwise_map]
    exact pairwise_sortDescBy
      (fun d => (lookupGroup (groupTabsByDomain tabs) d).length)
      (jsObjKeys (groupTabsByDomain tabs))
  · intro hall
    unfold getSortedDomainGroups
    have h1 : ((groupTabsByDomain tabs).map Prod.fst).filter isArrayIndex = [] :=
      List.filter_eq_nil_iff.mpr fun k hk => by simp [hall k hk]
    have h2 : ((groupTabsByDomain tabs).map Prod.fst).filter (fun s => !isArrayIndex s) =
        (groupTabsByDomain tabs).map Prod.fst :=
      List.filter_eq_self.mpr fun k hk => by simp [hall k hk]
    simp [jsObjKeys, h1, h2, sortAscBy]

theorem getSortedDomainGroups_spec_witness :
    getSortedDomainGroups [wTabA, wTabB] =
      (sortDescBy (fun d => (lookupGroup (groupTabsByDomain [wTabA, wTabB]) d).length)
        ((groupTabsByDomain [wTabA, wTabB]).map Prod.fst)).map
          (mkDomainGroup (groupTabsByDomain [wTabA, wTabB])) :=
  (getSortedDomainGroups_spec [wTabA, wTabB]).2.2 (by decide)

/-! ### Claim C2 -/

/-- Claim C2: `migrateStorage(fromMode, 'sync')` with a payload serializing
to more than 100,000 bytes throws the capacity error before writing
anything, leaving both storage areas exactly as they were (the returned
state is the input state); when the payload fits, it returns success with
the payload written to the sync area and then removed from the source
area exactly when the source mode is not `'local'`. -/
theorem migrateStorage_capacity_guard (fromMode : String) (st : StorageState) :
    (100000 < payloadSize (readPayload fromMode st) →
      migrateStorage fromMode "sync" st =
        (.error "Data too large for sync storage. Please reduce saved tabs first.", st)) ∧
    (payloadSize (readPayload fromMode st) ≤ 100000 →
      migrateStorage fromMode "sync" st =
        (.ok (),
          if fromMode ≠ "local"
          then updateArea fromMode removeTabsLabels
                 (updateArea "sync" (setPayload (readPayload fromMode st)) st)
          else updateArea "sync" (setPayload (readPayload fromMode st)) st)) := by
  constructor
  · intro h
    simp [migrateStorage, h]
  · intro h
    have h2 : ¬ (100000 < payloadSize (readPayload fromMode st)) := Nat.not_lt.mpr h
    simp [migrateStorage, h2]
    by_cases hf : fromMode = "local" <;> simp [hf]

theorem jsLen_append (a b : String) : jsLen (a ++ b) = jsLen a + jsLen b := by
  simp [jsLen, String.toList, String.data_append]

theorem intercalate_go_nil (a s : String) : String.intercalate.go a s [] = a := rfl

/-- A tab whose description carries the serialized bulk. -/
def bigTab (s : String) : Tab :=
  { id := "t", url := "u", domain := "d", title := "T", description := s
    labels := [], dateAdded := 1, favicon := "", dateModified := none }

def bigPayload (s : String) : Payload := { tabs := some [bigTab s], customLabels := none }

/-- Exact serialized size of the one-tab payload: a fixed 110-byte frame
plus the quoted description. -/
theorem payloadSize_bigPayload (s : String) :
    payloadSize (bigPayload s) = 110 + jsLen (jsonQuote s) := by
  simp only [payloadSize, bigPayload, bigTab, payloadJson, tabJson, jsonArr,
    List.map_cons, List.map_nil, List.append_nil, List.nil_append, List.cons_append,
    String.intercalate, intercalate_go_nil, jsLen_append]
  have e1 : jsLen "\x7b" = 1 := by decide
  have e2 : jsLen "\"tabs\":" = 7 := by decide
  have e3 : jsLen "[" = 1 := by decide
  have e4 : jsLen "\x7b\"id\":" = 6 := by decide
  have e5 : jsLen (jsonQuote "t") = 3 := by decide
  have e6 : jsLen ",\"url\":" = 7 := by decide
  have e7 : jsLen (jsonQuote "u") = 3 := by decide
  have e8 : jsLen ",\"domain\":" = 10 := by decide
  have e9 : jsLen (jsonQuote "d") = 3 := by decide
  have e10 : jsLen ",\"title\":" = 9 := by decide
  have e11 : jsLen (jsonQuote "T") = 3 := by decide
  have e12 : jsLen ",\"description\":" = 15 := by decide
  have e13 : jsLen ",\"labels\":" = 10 := by decide
  have e14 : jsLen "" = 0 := by decide
  have e15 : jsLen "]" = 1 := by decide
  have e16 : jsLen ",\"dateAdded\":" = 13 := by decide
  have e17 : jsLen (Nat.repr 1) = 1 := by decide
  have e18 : jsLen ",\"favicon\":" = 11 := by decide
  have e19 : jsLen (jsonQuote "") = 2 := by decide
  have e20 : jsLen "\x7d" = 1 := by decide
  omega

theorem jsonEscapeChar_a : jsonEscapeChar 'a' = ['a'] := by decide

theorem flatMap_escape_replicate (n : Nat) :
    (List.replicate n 'a').flatMap jsonEscapeChar = List.replicate n 'a' := by
  induction n with
  | zero => rfl
  | succ m ih => simp [List.replicate_succ, ih, jsonEscapeChar_a]

theorem jsCharLen_a : jsCharLen 'a' = 1 := by decide

theorem sum_jsCharLen_replicate (n : Nat) :
    ((List.replicate n 'a').map jsCharLen).sum = n := by
  induction n with
  | zero => rfl
  | succ m ih =>
      simp [List.replicate_succ, ih, jsCharLen_a]
      omega

theorem jsLen_jsonQuote_replicate (n : Nat) :
    jsLen (jsonQuote (String.mk (List.replicate n 'a'))) = n + 2 := by
  unfold jsonQuote
  rw [jsLen_append, jsLen_append]
  have h1 : jsLen (String.mk
      ((String.mk (List.replicate n 'a')).toList.flatMap jsonEscapeChar)) = n := by
    show (((List.replicate n 'a').flatMap jsonEscapeChar).map jsCharLen).sum = n
    rw [flatMap_escape_replicate]
    exact sum_jsCharLen_replicate n
  rw [h1]
  have h2 : jsLen "\"" = 1 := by decide
  omega

def bigStr : String := String.mk (List.replicate 100001 'a')

def bigState : StorageState :=
  { localArea := { tabs := some [bigTab bigStr], customLabels := none, settings := none }
    syncArea := { tabs := none, customLabels := none, settings := none } }

def smallState : StorageState :=
  { localArea := { tabs := some [], customLabels := some [], settings := none }
    syncArea := { tabs := none, customLabels := none, settings := none } }

theorem migrateStorage_capacity_guard_witness :
    migrateStorage "local" "sync" bigState =
      (.error "Data too large for sync storage. Please reduce saved tabs first.", bigState) ∧
    migrateStorage "local" "sync" smallState =
      (.ok (), updateArea "sync" (setPayload (readPayload "local" smallState)) smallState) := by
  constructor
  · apply (migrateStorage_capacity_guard "local" bigState).1
    have hr : readPayload "local" bigState = bigPayload bigStr := rfl
    rw [hr, payloadSize_bigPayload]
    have hq : jsLen (jsonQuote bigStr) = 100001 + 2 := jsLen_jsonQuote_replicate 100001
    omega
  · have h := (migrateStorage_capacity_guard "local" smallState).2 (by decide)
    simpa using h

end Tabi
